import Mathlib

/-!
Verification of the `outini/sysadmin_tools` repository: a shallow embedding
of the Ansible HTML-report callback (`ansible/callbacks/html_reports.py`)
and the Cisco NXOS configuration reader CLI (`nxos-tools/nxos_reader.py`),
together with theorems settling the specification's claims about status
roll-up, result upserting, diff extraction, rendering, internal-key
stripping and per-target error handling.
-/

set_option autoImplicit false

namespace SysadminTools

/-- The status enumeration, in the key order of the source's `COLORS`
`OrderedDict`: `play, skipped, include, ok, changed, failed, failures,
unreachable`.  The Lean constructor for `include` is `include'` because
`include` is a Lean keyword. -/
inductive Status where
  | play
  | skipped
  | include'
  | ok
  | changed
  | failed
  | failures
  | unreachable
deriving DecidableEq, Repr, Fintype

/-- The string each status is written as in the Python source. -/
def Status.str : Status → String
  | .play => "play"
  | .skipped => "skipped"
  | .include' => "include"
  | .ok => "ok"
  | .changed => "changed"
  | .failed => "failed"
  | .failures => "failures"
  | .unreachable => "unreachable"

/-- `COLORS` from the source: the Bootstrap color class of each status. -/
def COLORS : Status → String
  | .play => "dark"
  | .skipped => "secondary"
  | .include' => "info"
  | .ok => "success"
  | .changed => "warning"
  | .failed => "danger"
  | .failures => "danger"
  | .unreachable => "danger"

/-- `list(COLORS.keys())` from the source (`s_order` in `highest_status`). -/
def s_order : List Status :=
  [.play, .skipped, .include', .ok, .changed, .failed, .failures, .unreachable]

/-- `s_order.index(s)`: the position of a status in the `COLORS` key order,
the rank used by the source's roll-up. -/
def codeIdx (s : Status) : Nat := (s_order.indexOf s)

/-- Modelled from the spec: the rank of a status under the ordering of
spec §3, `play < skipped < include < ok < changed < failed/failures <
unreachable`, with `failed` and `failures` at equal rank.  Used only to
compare the source's roll-up order against the spec's order. -/
def specRank : Status → Nat
  | .play => 0
  | .skipped => 1
  | .include' => 2
  | .ok => 3
  | .changed => 4
  | .failed => 5
  | .failures => 5
  | .unreachable => 6

/-- A Python/JSON-like value, the universe of raw Ansible result data:
`None`, booleans, integers, strings, lists, and dicts modelled as
insertion-ordered association lists with string keys. -/
inductive PyVal where
  | none
  | bool (b : Bool)
  | int (n : Int)
  | str (s : String)
  | list (l : List PyVal)
  | dict (d : List (String × PyVal))

/-- First-match lookup in a dict's association list (Python dicts have
unique keys, so first-match agrees with dict indexing). -/
def dictGet : List (String × PyVal) → String → Option PyVal
  | [], _ => Option.none
  | p :: tl, key => if p.1 = key then Option.some p.2 else dictGet tl key

/-- `key in d` for a Python dict. -/
def dictHas (d : List (String × PyVal)) (key : String) : Bool :=
  (dictGet d key).isSome

/-- Python truthiness of a value. -/
def truthy : PyVal → Bool
  | .none => false
  | .bool b => b
  | .int n => n ≠ 0
  | .str s => s ≠ ""
  | .list l => ¬ l.isEmpty
  | .dict d => ¬ d.isEmpty

mutual

/-- `strip_internal_keys` from the source: recursively remove every dict
key that starts with `_ansible_`; recurse into dict values and list
elements; leave scalars unchanged.  The Python mutates in place and
returns the argument; the model returns the stripped value. -/
def strip_internal_keys : PyVal → PyVal
  | .list l => .list (stripList l)
  | .dict d => .dict (stripDict d)
  | v => v

/-- Stripping applied to each element of a list (the source's `for element
in result` loop; scalar elements are untouched there, on which stripping
is the identity). -/
def stripList : List PyVal → List PyVal
  | [] => []
  | x :: tl => strip_internal_keys x :: stripList tl

/-- Stripping applied to a dict's entries: drop `_ansible_`-prefixed keys,
strip the values kept. -/
def stripDict : List (String × PyVal) → List (String × PyVal)
  | [] => []
  | (k, v) :: tl =>
      if k.startsWith "_ansible_" then stripDict tl
      else (k, strip_internal_keys v) :: stripDict tl

end

mutual

/-- Whether any dict anywhere in the structure still holds an
`_ansible_`-prefixed key. -/
def hasInternal : PyVal → Bool
  | .list l => hasInternalList l
  | .dict d => hasInternalDict d
  | _ => false

/-- `hasInternal` over a list's elements. -/
def hasInternalList : List PyVal → Bool
  | [] => false
  | x :: tl => hasInternal x || hasInternalList tl

/-- `hasInternal` over a dict's entries. -/
def hasInternalDict : List (String × PyVal) → Bool
  | [] => false
  | (k, v) :: tl => k.startsWith "_ansible_" || hasInternal v || hasInternalDict tl

end

/-- First-match lookup in an association list with string keys (the model
of `OrderedDict` indexing for `TaskData.results`). -/
def assocGet {α : Type} : List (String × α) → String → Option α
  | [], _ => Option.none
  | p :: tl, key => if p.1 = key then Option.some p.2 else assocGet tl key

/-- One extracted diff entry, the dict built by `TaskData.get_diff` for one
diff source: keys `item`, `changed`, `failed`, `msg`, `diff`. -/
structure DiffRec where
  item : PyVal
  changed : PyVal
  failed : PyVal
  msg : PyVal
  diff : String

/-- The diff entry `TaskData.get_diff` builds from one dict source `rd`:
`item`/`msg` default to `None`, `changed` defaults to `False`, `failed`
falls back to `status == "failed"` when the key is absent, and `diff` is
the external `self._play._get_diff` helper (`ext`) applied to the raw
`diff` value (defaulting to `[]`). -/
def mkDiffOf (ext : PyVal → String) (status : Status)
    (rd : List (String × PyVal)) : DiffRec :=
  { item := (dictGet rd "item").getD .none
    changed := (dictGet rd "changed").getD (.bool false)
    failed := (dictGet rd "failed").getD (.bool (status = .failed))
    msg := (dictGet rd "msg").getD .none
    diff := ext ((dictGet rd "diff").getD (.list [])) }

/-- One loop iteration of `get_diff`: a non-dict source makes the Python
raise (`res['failed']` / `res.get` on a non-dict), modelled as `none`. -/
def diffOfSource (ext : PyVal → String) (status : Status) : PyVal → Option DiffRec
  | .dict rd => Option.some (mkDiffOf ext status rd)
  | _ => Option.none

/-- The `for res in result` loop of `get_diff` over the source list. -/
def mapDiffs (ext : PyVal → String) (status : Status) :
    List PyVal → Option (List DiffRec)
  | [] => Option.some []
  | res :: tl =>
      match diffOfSource ext status res, mapDiffs ext status tl with
      | Option.some dr, Option.some drs => Option.some (dr :: drs)
      | _, _ => Option.none

/-- `TaskData.get_diff` from the source.  `ext` stands for the external
`self._play._get_diff` helper of the Ansible callback base class, which
renders a raw diff value to text.  Sources: the elements of the `results`
list when the raw result carries one (looped task), otherwise the whole
result.  Returns `none` where the Python would raise: when the raw result
is not a dict, when its `results` value is not a list, or when a source
element is not a dict. -/
def get_diff (ext : PyVal → String) (result : PyVal) (status : Status) :
    Option (List DiffRec) :=
  match result with
  | .dict d =>
      match dictGet d "results" with
      | Option.some (.list l) => mapDiffs ext status l
      | Option.some _ => Option.none
      | Option.none => mapDiffs ext status [result]
  | _ => Option.none

/-- One stored per-host result: the dict `TaskData.record_result` keeps
under the `(host)-(task name)` key.  `time` models `datetime.now()`. -/
structure ResultRec where
  time : Nat
  host : String
  status : Status
  task_name : String
  deleg_vars : PyVal
  diffs : List DiffRec
  result : PyVal

/-- One iteration of the `highest_status` loop: take the result's status
when the running status is absent (`not status`) or when the result's
status has a strictly larger index in `s_order`
(`s_order.index(r['status']) > s_order.index(status)`). -/
def rollStep (st : Option Status) (r : ResultRec) : Option Status :=
  match st with
  | Option.none => Option.some r.status
  | Option.some s =>
      if codeIdx s < codeIdx r.status then Option.some r.status
      else Option.some s

/-- `highest_status` from the source: fold `rollStep` over the result
dicts starting from the initial status. -/
def highest_status (status : Option Status) (results_list : List ResultRec) :
    Option Status :=
  results_list.foldl rollStep status

/-- Task kind: plain `Task`, `IncludeRole`, or `LocalInclude` (set by
`record_local_include`). -/
inductive TaskType where
  | task
  | includeRole
  | localInclude
deriving DecidableEq, Repr

/-- `TaskData` from the source.  `stCache` models the `_status` attribute
(the lazily-filled status cache; `None` in Python is `Option.none` here),
`pfx` models `prefix` (a Lean keyword), `start` models the creation
timestamp.  `results` is the `OrderedDict` as an insertion-ordered
association list. -/
structure TaskData where
  start : Nat
  name : String
  file : String
  pfx : String
  stCache : Option Status
  results : List (String × ResultRec)
  include_filepath : Option String
  include_args : String
  include_hosts : Option (List String)
  task_type : TaskType

/-- `TaskData.__init__`: fresh task with empty results; an `IncludeRole`
task starts with its status forced to `include`. -/
def TaskData.init (start : Nat) (name file pfx : String) (isIncludeRole : Bool) :
    TaskData :=
  { start := start, name := name, file := file, pfx := pfx
    stCache := if isIncludeRole then Option.some .include' else Option.none
    results := []
    include_filepath := Option.none, include_args := "", include_hosts := Option.none
    task_type := if isIncludeRole then .includeRole else .task }

/-- The `TaskData.status` property.  Reading it computes
`highest_status(self._status, self.results.values())` when the cache is
empty, defaults to `skipped` when that is still empty, stores the value in
the cache and returns it; the model returns the value together with the
mutated task. -/
def TaskData.statusRead (t : TaskData) : Status × TaskData :=
  let st1 : Option Status :=
    match t.stCache with
    | Option.none => highest_status Option.none (t.results.map Prod.snd)
    | Option.some s => Option.some s
  let s : Status :=
    match st1 with
    | Option.none => Status.skipped
    | Option.some s => s
  (s, { t with stCache := Option.some s })

/-- The dict stored for one result event by `TaskData.record_result`.
Python's `strip_internal_keys(result._result)` mutates the raw result in
place after `get_diff` has extracted references into it, so the stored
diff entries end up holding the stripped `item`/`changed`/`failed`/`msg`
values (stripping is the identity on the scalar cases); the `diff` text
was already rendered from the unstripped value.  `deleg_vars` is read
before the `_ansible_delegated_vars` key is deleted, and key deletion does
not descend into the deleted value. -/
def recOfEvent (host task_name : String) (res : PyVal) (status : Status)
    (tm : Nat) (diffs : List DiffRec) : ResultRec :=
  { time := tm, host := host, status := status, task_name := task_name
    deleg_vars :=
      (match res with
       | .dict d => (dictGet d "_ansible_delegated_vars").getD .none
       | _ => .none)
    diffs := diffs.map fun dr =>
      { dr with
          item := strip_internal_keys dr.item
          changed := strip_internal_keys dr.changed
          failed := strip_internal_keys dr.failed
          msg := strip_internal_keys dr.msg }
    result := strip_internal_keys res }

/-- `TaskData.record_result` from the source: compute the diffs, then
upsert the stored dict under the `host-task_name` key — update in place
when the key exists (keeping its position), append otherwise.  `none` when
`get_diff` would raise. -/
def record_result (ext : PyVal → String) (t : TaskData) (host task_name : String)
    (res : PyVal) (status : Status) (tm : Nat) : Option TaskData :=
  match get_diff ext res status with
  | Option.none => Option.none
  | Option.some diffs =>
      let result_id := host ++ "-" ++ task_name
      let rec2 := recOfEvent host task_name res status tm diffs
      Option.some
        { t with results :=
            if t.results.any fun p => p.1 = result_id then
              t.results.map fun p =>
                if p.1 = result_id then (result_id, rec2) else p
            else t.results ++ [(result_id, rec2)] }

/-- Everything one roll-up sees: the optional initial status followed by
the stored results' statuses in insertion order. -/
def statusesOf (init : Option Status) (recs : List (String × ResultRec)) :
    List Status :=
  init.toList ++ recs.map fun p => p.2.status

/-- A task with the given status cache and stored results, other fields at
the values `TaskData.__init__` would give them. -/
def mkTask (init : Option Status) (recs : List (String × ResultRec)) : TaskData :=
  { TaskData.init 0 "task" "site.yml" "TASK" false with
      stCache := init, results := recs }

/-- A stored result whose only relevant field is its status. -/
def mkRec0 (s : Status) : ResultRec :=
  { time := 0, host := "host", status := s, task_name := "task"
    deleg_vars := .none, diffs := [], result := .none }

/-- Trivial stand-in for the external diff renderer. -/
def ext0 : PyVal → String := fun _ => ""

/-- A fresh, empty task used to instantiate the upsert and caching
theorems on concrete inputs. -/
def wTask0 : TaskData := mkTask Option.none []

/-- A minimal raw result: the empty dict. -/
def wRes0 : PyVal := PyVal.dict []

/-- The task obtained by reading `wTask0`'s status (caching `skipped`) and
then recording a `failed` result. -/
def wCached2 : TaskData :=
  (record_result ext0 wTask0.statusRead.2 "h" "t" wRes0 Status.failed 5).getD wTask0

/-- `wTask0` after recording one `ok` result under key `h-t`. -/
def wUpsert1 : TaskData :=
  (record_result ext0 wTask0 "h" "t" wRes0 Status.ok 0).getD wTask0

/-- `wUpsert1` after recording a `changed` result under the same key. -/
def wUpsert2 : TaskData :=
  (record_result ext0 wUpsert1 "h" "t" wRes0 Status.changed 1).getD wTask0

/-- `html.escape` with its default quoting: `&`, `<`, `>`, `"` and the
apostrophe are replaced by entities (ampersand first). -/
def escapeHtml (s : String) : String :=
  ((((s.replace "&" "&amp;").replace "<" "&lt;").replace ">" "&gt;").replace
      "\"" "&quot;").replace "\x27" "&#x27;"

mutual

/-- Python `repr` of a value (used by `str()` on containers).  Inner
string escaping is not reproduced; no claim depends on the text. -/
def pyRepr : PyVal → String
  | .none => "None"
  | .bool true => "True"
  | .bool false => "False"
  | .int n => toString n
  | .str s => "\x27" ++ s ++ "\x27"
  | .list l => "[" ++ pyReprList l ++ "]"
  | .dict d => "\x7b" ++ pyReprDict d ++ "\x7d"

/-- Comma-joined reprs of a list's elements. -/
def pyReprList : List PyVal → String
  | [] => ""
  | [x] => pyRepr x
  | x :: tl => pyRepr x ++ ", " ++ pyReprList tl

/-- Comma-joined `key: value` reprs of a dict's entries. -/
def pyReprDict : List (String × PyVal) → String
  | [] => ""
  | [p] => "\x27" ++ p.1 ++ "\x27: " ++ pyRepr p.2
  | p :: tl => "\x27" ++ p.1 ++ "\x27: " ++ pyRepr p.2 ++ ", " ++ pyReprDict tl

end

/-- Python `str()`: bare text for strings, `repr`-style otherwise. -/
def pyStr : PyVal → String
  | .str s => s
  | v => pyRepr v

mutual

/-- `json.dumps` of a value, modelled without indentation or inner string
escaping; no claim depends on the exact text of the debug block. -/
def pyJson : PyVal → String
  | .none => "null"
  | .bool true => "true"
  | .bool false => "false"
  | .int n => toString n
  | .str s => "\"" ++ s ++ "\""
  | .list l => "[" ++ pyJsonList l ++ "]"
  | .dict d => "\x7b" ++ pyJsonDict d ++ "\x7d"

/-- Comma-joined serializations of a list's elements. -/
def pyJsonList : List PyVal → String
  | [] => ""
  | [x] => pyJson x
  | x :: tl => pyJson x ++ ", " ++ pyJsonList tl

/-- Comma-joined `"key": value` serializations of a dict's entries. -/
def pyJsonDict : List (String × PyVal) → String
  | [] => ""
  | [p] => "\"" ++ p.1 ++ "\": " ++ pyJson p.2
  | p :: tl => "\"" ++ p.1 ++ "\": " ++ pyJson p.2 ++ ", " ++ pyJsonDict tl

end

/-- `code_block` from the source. -/
def code_block (content : String) : String :=
  "<code><pre>" ++ content ++ "</pre></code>"

/-- `cli_colors_to_html` from the source: escape, then translate the CLI
color markers (the source's literals carry no ESC byte). -/
def cli_colors_to_html (text : String) : String :=
  ((((escapeHtml text).replace "[0;31m" "<code class=\"text-danger\">").replace
        "[0;32m" "<code class=\"text-success\">").replace
      "[0;36m" "<code class=\"text-info\">").replace "[0m" "</code>"

/-- `color_html` from the source. -/
def color_html (status : Status) (text : String) : String :=
  "<code class=\"text-" ++ COLORS status ++ "\">" ++ escapeHtml text ++ "</code>"

/-- Python truthiness of the `header`/`content` arguments of `color_block`
(`None` and the empty string are falsy). -/
def truthyStr (o : Option String) : Bool := (o.getD "") ≠ ""

/-- The parts appended by `color_block`, one constructor per `append` in
the source, so that the presence of the toggle anchor or of the collapsible
content region is a constructor test rather than string matching. -/
inductive CBPart where
  | alertOpen (color : String)
  | toggle (color : String) (divId : String)
  | headerStrong (h : String)
  | collapseOpen (divId : String)
  | cardOpen
  | content (c : String)
  | cardClose
  | collapseClose
  | divClose
deriving DecidableEq, Repr

/-- The markup text of one part, as formatted by the source. -/
def CBPart.render : CBPart → String
  | .alertOpen color =>
      "<div class=\"alert alert-" ++ color ++ " collapse show\" role=\"alert\">"
  | .toggle color divId =>
      "<a class=\"btn btn-" ++ color ++ " btn-sm\" data-toggle=\"collapse\" "
        ++ "href=\"#x" ++ divId ++ "\" role=\"button\" aria-expanded=\"false\" "
        ++ "aria-controls=\"x" ++ divId ++ "\">+</a>"
  | .headerStrong h => "<strong>" ++ h ++ "</strong>"
  | .collapseOpen divId =>
      "<div class=\"collapse blk-content\" id=\"x" ++ divId ++ "\">"
  | .cardOpen => "<div class=\"card card-body\">"
  | .content c => c
  | .cardClose => "</div>"
  | .collapseClose => "</div>"
  | .divClose => "</div>"

/-- `color_block` from the source, as its list of parts.  `divId` models
`str(random.random())[2:]`: the source's contract is uniqueness of the
identifier, not its value, so the caller threads a counter. -/
def color_block (status : Status) (header content : Option String)
    (divId : String) : List CBPart :=
  let color := COLORS status
  let parts := [CBPart.alertOpen color]
  let parts := if truthyStr header && truthyStr content
    then parts ++ [CBPart.toggle color divId] else parts
  let parts := if truthyStr header
    then parts ++ [CBPart.headerStrong (header.getD "")] else parts
  let parts := if truthyStr header && truthyStr content
    then parts ++ [CBPart.collapseOpen divId] else parts
  let parts := if truthyStr content
    then parts ++ [CBPart.cardOpen, CBPart.content (content.getD ""),
      CBPart.cardClose] else parts
  let parts := if truthyStr header && truthyStr content
    then parts ++ [CBPart.collapseClose] else parts
  parts ++ [CBPart.divClose]

/-- `"\n".join(parts)` of `color_block`. -/
def color_blockStr (status : Status) (header content : Option String)
    (divId : String) : String :=
  String.intercalate "\n" ((color_block status header content divId).map CBPart.render)

/-- `debug_block` from the source. -/
def debug_block (data : PyVal) (divId : String) : String :=
  color_blockStr .skipped (Option.some "Debug")
    (Option.some (code_block (escapeHtml (pyJson data)))) divId

/-- The `Item:` div of the per-diff loop in `TaskData.to_html`: present
(with trailing newline) exactly when the diff's item label is truthy. -/
def itemStr (d : DiffRec) : String :=
  if truthy d.item then
    "<div class=\"item\">Item: " ++ escapeHtml (pyStr d.item) ++ "</div>\n"
  else ""

/-- One rendered per-diff block of `TaskData.to_html`, tagged by the
branch of the loop that produced it: the `diff['failed']` branch (a
failure block), the unchanged-with-item branch (`ok`), or the changed
branch (colored by the result's status). -/
inductive DiffBlock where
  | failure (content : String)
  | okItem (content : String)
  | changed (st : Status) (content : String)
deriving DecidableEq, Repr

/-- Whether a per-diff block came from the failure branch. -/
def isFailureBlock : DiffBlock → Bool
  | .failure _ => true
  | _ => false

/-- The per-diff loop body of `TaskData.to_html` for one diff: a failed
diff always yields one failure block; an unchanged diff yields an `ok`
block only when it has an item label; a changed diff yields a block
colored by the result's status only when the item label or the rendered
diff text is nonempty. -/
def renderDiff (resStatus : Status) (d : DiffRec) : List DiffBlock :=
  let item := itemStr d
  if truthy d.failed then
    [DiffBlock.failure
      (item ++ "<div class=\"item\">Msg: " ++ escapeHtml (pyStr d.msg) ++ "</div>")]
  else if !truthy d.changed then
    (if item ≠ "" then [DiffBlock.okItem item] else [])
  else
    let diffHtml := if d.diff ≠ "" then code_block (cli_colors_to_html d.diff) else ""
    if item ≠ "" ∨ diffHtml ≠ "" then [DiffBlock.changed resStatus (item ++ diffHtml)]
    else []

/-- All per-diff blocks of one result, in loop order. -/
def renderDiffs (resStatus : Status) (diffs : List DiffRec) : List DiffBlock :=
  (diffs.map (renderDiff resStatus)).flatten

/-- The `color_block` call a per-diff block corresponds to (all three
branches pass `content=` only). -/
def diffBlockStr (b : DiffBlock) (divId : String) : String :=
  match b with
  | .failure content => color_blockStr .failed Option.none (Option.some content) divId
  | .okItem content => color_blockStr .ok Option.none (Option.some content) divId
  | .changed st content => color_blockStr st Option.none (Option.some content) divId

/-- The accumulated `content` string of the per-diff loop, threading the
identifier counter (one fresh identifier per emitted block). -/
def renderDiffsStr (resStatus : Status) (diffs : List DiffRec) (ctr : Nat) :
    String × Nat :=
  (renderDiffs resStatus diffs).foldl
    (fun acc b => (acc.1 ++ diffBlockStr b (toString acc.2), acc.2 + 1)) ("", ctr)

/-- Model of `datetime.strftime(TIME_FORMAT)` over the abstract clock. -/
def fmtTime (n : Nat) : String := toString n

/-- The `TaskData.header` property, with the already-read status passed
explicitly (the property reads `self.status`, which is cached by then). -/
def TaskData.headerOf (t : TaskData) (s : Status) : String :=
  let h := fmtTime t.start ++ ": " ++ s.str ++ " - " ++ t.pfx ++ ": " ++ t.name
  if t.task_type = TaskType.includeRole then h ++ " (include role)" else h

/-- The in-place status rewrite of `TaskData.to_html`: a stored result's
`ok` becomes the task status when that status is `include`. -/
def retagStatus (taskStatus rs : Status) : Status :=
  if rs = Status.ok ∧ taskStatus = Status.include' then taskStatus else rs

/-- One iteration of the `for result in self.results.values()` loop of
`TaskData.to_html`: build the header from the pre-rewrite status, apply
the `ok`→`include` rewrite, then emit either a header-only block
(`skipped`/`include`) or a full block (per-diff blocks plus debug block).
The accumulator carries the content string, the mutated results and the
identifier counter.  The delegated-host label is looked up totally here;
the Python would raise on a truthy non-dict `deleg_vars` or a missing
`ansible_host` key. -/
def renderResultStep (file : String) (s : Status)
    (acc : String × List (String × ResultRec) × Nat) (kv : String × ResultRec) :
    String × List (String × ResultRec) × Nat :=
  let rec0 := kv.2
  let header0 := rec0.status.str ++ ": " ++ rec0.host
  let header1 :=
    if truthy rec0.deleg_vars then
      header0 ++ " => " ++
        pyStr ((match rec0.deleg_vars with
                | .dict dv => dictGet dv "ansible_host"
                | _ => Option.none).getD .none)
    else header0
  let rec1 := { rec0 with status := retagStatus s rec0.status }
  if rec1.status = Status.skipped ∨ rec1.status = Status.include' then
    (acc.1 ++ color_blockStr rec1.status (Option.some (escapeHtml header1))
        Option.none (toString acc.2.2),
      acc.2.1 ++ [(kv.1, rec1)], acc.2.2 + 1)
  else
    let cpair := renderDiffsStr rec1.status rec1.diffs acc.2.2
    let dbg := debug_block
      (PyVal.dict [("task_file", PyVal.str file), ("result", rec1.result)])
      (toString cpair.2)
    (acc.1 ++ color_blockStr rec1.status (Option.some (escapeHtml header1))
        (Option.some (cpair.1 ++ dbg)) (toString (cpair.2 + 1)),
      acc.2.1 ++ [(kv.1, rec1)], cpair.2 + 2)

/-- `TaskData.to_html` from the source, returning the markup, the mutated
task and the next fresh identifier.  The status property is read once up
front: in the source the first read happens before any result is
rewritten (inside the first loop iteration or, for an empty loop, in
`self.header`), so the cached value is the same.  A `LocalInclude` task
renders its fixed include record; other tasks render their results. -/
def TaskData.to_html (t : TaskData) (ctr : Nat) : String × TaskData × Nat :=
  let s := t.statusRead.1
  let t1 := t.statusRead.2
  match t.task_type with
  | TaskType.localInclude =>
      let html_content := code_block
        ("Included file: " ++ (t.include_filepath.getD "None") ++ t.include_args
          ++ "\nHosts:\n"
          ++ String.intercalate "\n" (t.include_hosts.getD []))
      (color_blockStr s (Option.some (t1.headerOf s)) (Option.some html_content)
          (toString ctr),
        t1, ctr + 1)
  | _ =>
      let trip := t.results.foldl (renderResultStep t.file s) ("", [], ctr)
      let t2 := { t1 with results := trip.2.1 }
      (color_blockStr s (Option.some (t2.headerOf s)) (Option.some trip.1)
          (toString trip.2.2),
        t2, trip.2.2 + 1)

/-- The `ok`→`include` rewrite applied to one stored entry: only the
status field changes. -/
def retagKV (s : Status) (kv : String × ResultRec) : String × ResultRec :=
  (kv.1, { kv.2 with status := retagStatus s kv.2.status })

/-- The effect of `TaskData.to_html` on the task (the full data-model
mutation): the status cache is filled, and each stored result's status
goes through the `ok`→`include` rewrite; everything else is untouched. -/
def taskRenderEffect (t : TaskData) : TaskData :=
  if t.task_type = TaskType.localInclude then t.statusRead.2
  else { t.statusRead.2 with results := t.results.map (retagKV t.statusRead.1) }

/-- `CallbackModule`'s document state as `to_html` reads it: the run name,
check-mode flag, start/stop clocks, the rendered summary of the external
`AnsibleStats` object (an external collaborator, represented by its
rendered text), and the accumulated tasks. -/
structure RunData where
  name : String
  check_mode : Bool
  start : Nat
  stop : Nat
  summaryStr : String
  tasks : List TaskData

/-- One iteration of the `for task in self.tasks` loop of
`CallbackModule.to_html`: append the task's markup, collect the mutated
task, carry the identifier counter forward. -/
def runTaskStep (acc : String × List TaskData × Nat) (t : TaskData) :
    String × List TaskData × Nat :=
  let r := t.to_html acc.2.2
  (acc.1 ++ r.1, acc.2.1 ++ [r.2.1], r.2.2)

/-- `CallbackModule.to_html` from the source: the play header block with
the timing/summary code block, then every task's markup in order,
threading the identifier counter and collecting the mutated tasks. -/
def RunData.to_html (run : RunData) (ctr : Nat) : String × RunData × Nat :=
  let header := "PLAY: " ++ run.name
    ++ (if run.check_mode then "  [check mode]" else "")
  let head_block := color_blockStr .play (Option.some header)
    (Option.some (code_block
      ("Start: " ++ fmtTime run.start
        ++ "\nStop: " ++ fmtTime run.stop
        ++ "\nDuration: " ++ toString (run.stop - run.start) ++ " seconds"
        ++ "\nTasks: " ++ toString run.tasks.length
        ++ "\n" ++ run.summaryStr)))
    (toString ctr)
  let trip := run.tasks.foldl runTaskStep (head_block, [], ctr + 1)
  (trip.1, { run with tasks := trip.2.1 }, trip.2.2)

/-- Whether a non-failed diff emits a (non-failure) block: an unchanged
diff needs an item label, a changed diff needs an item label or a nonempty
rendered diff text. -/
def nonFailEmits (dr : DiffRec) : Bool :=
  if truthy dr.failed then false
  else if !truthy dr.changed then decide (itemStr dr ≠ "")
  else decide (itemStr dr ≠ "")
    || decide ((if dr.diff ≠ "" then code_block (cli_colors_to_html dr.diff) else "") ≠ "")

/-- The resolved failed flag of a raw diff source: the explicit `failed`
value when present, else `status == "failed"`. -/
def resolvedFailed (status : Status) (rd : List (String × PyVal)) : Bool :=
  truthy ((dictGet rd "failed").getD (PyVal.bool (status = Status.failed)))

/-- A looped raw result with one item that explicitly carries
`failed: false` and nothing else. -/
def cexLoopRes : PyVal :=
  PyVal.dict [("results", PyVal.list [PyVal.dict [("failed", PyVal.bool false)]])]

/-- A looped raw result's item dicts: one failed item, one successful item
with an item label. -/
def wLoopRds : List (List (String × PyVal)) :=
  [[("failed", PyVal.bool true), ("msg", PyVal.str "boom")],
   [("failed", PyVal.bool false), ("item", PyVal.str "x")]]

/-- The looped raw result built from `wLoopRds`. -/
def wLoopRes : List (String × PyVal) :=
  [("results", PyVal.list (wLoopRds.map PyVal.dict))]

/-- An include-status task holding one stored `ok` result: rendering it
rewrites the stored status. -/
def wRenderTask : TaskData :=
  mkTask (Option.some Status.include') [("h-t", mkRec0 Status.ok)]

/-- A one-task run used to exhibit the rendering mutation. -/
def wRenderRun : RunData :=
  { name := "play", check_mode := false, start := 0, stop := 0
    summaryStr := "", tasks := [wRenderTask] }

/-- One normalized entry of the NXOS reader (`Entry`, a dict in the
source): the fields `gather_data` fills for one VLAN.  Optional fields are
Python `None` when absent. -/
structure Entry where
  vlan_id : String
  vlan_name : String
  vrf : String
  vni : Option String
  masterip : Option String
  slaveip : Option String
  vip : Option String
  mask : Option String
  isl3 : Option Bool
deriving DecidableEq, Repr

/-- `"%s"`-style text of an optional string (`None` prints as `None`). -/
def optPyStr : Option String → String
  | Option.none => "None"
  | Option.some s => s

/-- `"%s"`-style text of an optional bool. -/
def optBoolStr : Option Bool → String
  | Option.none => "None"
  | Option.some true => "True"
  | Option.some false => "False"

/-- `Entry.to_json` from the source: the base fields, the VXLAN fields
when `vni` is not `None` (plus gateway fields when `isl3 is False`), else
the HSRP fields when `masterip` is truthy (plus `vip` when truthy). -/
def Entry.to_json (e : Entry) : String :=
  let output := ["name: \x27" ++ e.vlan_name ++ "\x27", "vlan_id: " ++ e.vlan_id]
  let output :=
    if e.vni.isSome then
      let o := output ++ ["vrf: \x27" ++ e.vrf ++ "\x27",
        "isL3: " ++ optBoolStr e.isl3, "vni: " ++ optPyStr e.vni]
      if e.isl3 = Option.some false then
        o ++ ["gwip: " ++ optPyStr e.masterip, "mask: " ++ optPyStr e.mask ++ " "]
      else o
    else if (e.masterip.getD "") ≠ "" then
      let o := output ++ ["vrf: \x27" ++ e.vrf ++ "\x27",
        "masterip: " ++ optPyStr e.masterip, "slaveip: " ++ optPyStr e.slaveip,
        "mask: " ++ optPyStr e.mask]
      if (e.vip.getD "") ≠ "" then o ++ ["vip: " ++ optPyStr e.vip] else o
    else output
  "- \x7b " ++ String.intercalate ", " output ++ " \x7d"

/-- `line.strip().split('|', 1)` of one targets-file line: the master
connection string and the optional slave part. -/
def parseTarget (line : String) : String × Option String :=
  match line.trim.splitOn "|" with
  | [] => ("", Option.none)
  | [m] => (m, Option.none)
  | m :: rest => (m, Option.some (String.intercalate "|" rest))

/-- One iteration of the `for line in targets` loop of the NXOS reader's
`__main__`.  `gather` models `gather_data` (a netmiko-backed network
call: it may raise, modelled as `Except.error`), `showMacs` models
`show_vlans_macs` including its printed lines.  The accumulator carries
the printed lines and the `entries` dict (vlan id → first entry seen);
the bare `except` prints the "unresponsive targets" diagnostic naming the
stripped line and continues. -/
def targetStep (gather : String → Option String → Bool → Except Unit (List Entry))
    (showMacs : String → Except Unit (List String))
    (vlansMacs vxlan : Bool)
    (acc : List String × List (String × Entry)) (line : String) :
    List String × List (String × Entry) :=
  let t := parseTarget line
  if vlansMacs then
    match showMacs t.1 with
    | Except.ok out => (acc.1 ++ out, acc.2)
    | Except.error _ => (acc.1 ++ ["# unresponsive targets: " ++ line.trim], acc.2)
  else
    match gather t.1 t.2 vxlan with
    | Except.ok data =>
        (acc.1,
          data.foldl
            (fun es e =>
              if (assocGet es e.vlan_id).isSome then es else es ++ [(e.vlan_id, e)])
            acc.2)
    | Except.error _ => (acc.1 ++ ["# unresponsive targets: " ++ line.trim], acc.2)

/-- The targets-file batch path of `__main__`: process every line, then
print the collected entries' `to_json` lines. -/
def processTargets (gather : String → Option String → Bool → Except Unit (List Entry))
    (showMacs : String → Except Unit (List String))
    (vlansMacs vxlan : Bool) (targets : List String) : List String :=
  let st := targets.foldl (targetStep gather showMacs vlansMacs vxlan) ([], [])
  st.1 ++ st.2.map fun p => p.2.to_json

/-- The single-target path of `__main__` (no targets file): nothing
catches a gathering error, so it propagates and aborts the run. -/
def processSingleTarget
    (gather : String → Option String → Bool → Except Unit (List Entry))
    (showMacs : String → Except Unit (List String))
    (vlansMacs : Bool) (mConn : String) (sConn : Option String) (vxlan : Bool) :
    Except Unit (List String) :=
  if vlansMacs then showMacs mConn
  else
    match gather mConn sConn vxlan with
    | Except.ok data => Except.ok (data.map Entry.to_json)
    | Except.error e => Except.error e

/-- A gatherer whose device is unreachable: every call raises. -/
def gatherFail : String → Option String → Bool → Except Unit (List Entry) :=
  fun _ _ _ => Except.error ()

/-- A MAC report that always succeeds with no output. -/
def showMacs0 : String → Except Unit (List String) :=
  fun _ => Except.ok []

mutual

theorem strip_idem : ∀ v, strip_internal_keys (strip_internal_keys v) = strip_internal_keys v
  | .none => rfl
  | .bool _ => rfl
  | .int _ => rfl
  | .str _ => rfl
  | .list l => by simp [strip_internal_keys, stripList_idem l]
  | .dict d => by simp [strip_internal_keys, stripDict_idem d]

theorem stripList_idem : ∀ l, stripList (stripList l) = stripList l
  | [] => rfl
  | x :: tl => by simp [stripList, strip_idem x, stripList_idem tl]

theorem stripDict_idem : ∀ d, stripDict (stripDict d) = stripDict d
  | [] => rfl
  | (k, v) :: tl => by
      rw [stripDict]
      by_cases h : k.startsWith "_ansible_"
      · rw [if_pos h]
        exact stripDict_idem tl
      · rw [if_neg h, stripDict, if_neg h, strip_idem v, stripDict_idem tl]

end

mutual

theorem strip_clean : ∀ v, hasInternal (strip_internal_keys v) = false
  | .none => rfl
  | .bool _ => rfl
  | .int _ => rfl
  | .str _ => rfl
  | .list l => by simp [strip_internal_keys, hasInternal, stripList_clean l]
  | .dict d => by simp [strip_internal_keys, hasInternal, stripDict_clean d]

theorem stripList_clean : ∀ l, hasInternalList (stripList l) = false
  | [] => rfl
  | x :: tl => by
      simp [stripList, hasInternalList, strip_clean x, stripList_clean tl]

theorem stripDict_clean : ∀ d, hasInternalDict (stripDict d) = false
  | [] => rfl
  | (k, v) :: tl => by
      rw [stripDict]
      by_cases h : k.startsWith "_ansible_"
      · rw [if_pos h]
        exact stripDict_clean tl
      · rw [if_neg h, hasInternalDict]
        simp only [strip_clean v, stripDict_clean tl, Bool.or_false]
        simpa using h

end

/-- C7: stripping internal-marker-prefixed keys is idempotent, and after
one application no dict anywhere in the structure holds a key beginning
with the reserved `_ansible_` prefix. -/
theorem strip_internal_keys_idempotent_clean (v : PyVal) :
    strip_internal_keys (strip_internal_keys v) = strip_internal_keys v
      ∧ hasInternal (strip_internal_keys v) = false :=
  ⟨strip_idem v, strip_clean v⟩

theorem codeIdx_mono : ∀ a b : Status, codeIdx a ≤ codeIdx b → specRank a ≤ specRank b := by
  decide

theorem rollStep_eq (st : Option Status) (r : ResultRec) :
    ∃ s1, rollStep st r = Option.some s1
      ∧ (st = Option.some s1 ∨ s1 = r.status)
      ∧ (∀ s0, st = Option.some s0 → codeIdx s0 ≤ codeIdx s1)
      ∧ codeIdx r.status ≤ codeIdx s1 := by
  cases st with
  | none =>
      refine ⟨r.status, rfl, Or.inr rfl, ?_, Nat.le_refl _⟩
      intro s0 h
      cases h
  | some s0 =>
      by_cases h : codeIdx s0 < codeIdx r.status
      · refine ⟨r.status, by simp [rollStep, h], Or.inr rfl, ?_, Nat.le_refl _⟩
        intro s0' h'
        cases h'
        exact Nat.le_of_lt h
      · refine ⟨s0, by simp [rollStep, h], Or.inl rfl, ?_, Nat.le_of_not_lt h⟩
        intro s0' h'
        cases h'
        exact Nat.le_refl _

theorem highest_status_some (l : List ResultRec) :
    ∀ s0, ∃ s, highest_status (Option.some s0) l = Option.some s := by
  induction l with
  | nil => exact fun s0 => ⟨s0, rfl⟩
  | cons r tl ih =>
      intro s0
      obtain ⟨s1, hs1, -⟩ := rollStep_eq (Option.some s0) r
      obtain ⟨s, hs⟩ := ih s1
      refine ⟨s, ?_⟩
      rw [highest_status, List.foldl_cons, hs1]
      exact hs

theorem highest_status_none_iff (l : List ResultRec) (st : Option Status) :
    highest_status st l = Option.none ↔ st = Option.none ∧ l = [] := by
  constructor
  · intro h
    cases l with
    | nil =>
        exact ⟨h, rfl⟩
    | cons r tl =>
        exfalso
        obtain ⟨s1, hs1, -⟩ := rollStep_eq st r
        obtain ⟨s, hs⟩ := highest_status_some tl s1
        rw [highest_status, List.foldl_cons, hs1] at h
        have h2 : Option.some s = (Option.none : Option Status) := by
          rw [← hs]
          exact h
        cases h2
  · rintro ⟨h1, h2⟩
    subst h1
    subst h2
    rfl

theorem highest_status_spec (l : List ResultRec) :
    ∀ (st : Option Status) (s : Status),
      highest_status st l = Option.some s →
      (st = Option.some s ∨ ∃ r ∈ l, r.status = s)
      ∧ (∀ s0, st = Option.some s0 → codeIdx s0 ≤ codeIdx s)
      ∧ (∀ r ∈ l, codeIdx r.status ≤ codeIdx s) := by
  induction l with
  | nil =>
      intro st s h
      simp only [highest_status, List.foldl_nil] at h
      subst h
      refine ⟨Or.inl rfl, ?_, ?_⟩
      · intro s0 h0
        cases h0
        exact Nat.le_refl _
      · intro r hr
        exact absurd hr (List.not_mem_nil r)
  | cons r tl ih =>
      intro st s h
      rw [highest_status, List.foldl_cons] at h
      obtain ⟨s1, hs1, hmem1, hinit1, hr1⟩ := rollStep_eq st r
      rw [hs1] at h
      obtain ⟨hmem, hinit, helems⟩ := ih (Option.some s1) s h
      have hs1le : codeIdx s1 ≤ codeIdx s := hinit s1 rfl
      refine ⟨?_, ?_, ?_⟩
      · cases hmem with
        | inl he =>
            have h12 : s1 = s := Option.some.inj he
            cases hmem1 with
            | inl h0 => exact Or.inl (by rw [h0, h12])
            | inr h0 =>
                refine Or.inr ⟨r, List.mem_cons_self r tl, ?_⟩
                rw [← h0, h12]
        | inr hex =>
            obtain ⟨r', hr', hst⟩ := hex
            exact Or.inr ⟨r', List.mem_cons_of_mem _ hr', hst⟩
      · intro s0 h0
        exact Nat.le_trans (hinit1 s0 h0) hs1le
      · intro r' hr'
        rcases List.mem_cons.mp hr' with h0 | h0
        · subst h0
          exact Nat.le_trans hr1 hs1le
        · exact helems r' h0

/-- The roll-up returns one of its inputs, of maximal spec rank among them. -/
theorem highest_status_max (init : Option Status)
    (recs : List (String × ResultRec)) (s : Status)
    (h : highest_status init (recs.map Prod.snd) = Option.some s) :
    s ∈ statusesOf init recs
      ∧ ∀ x ∈ statusesOf init recs, specRank x ≤ specRank s := by
  obtain ⟨hmem, hinit, helems⟩ := highest_status_spec (recs.map Prod.snd) init s h
  constructor
  · cases hmem with
    | inl h0 =>
        subst h0
        exact List.mem_append_left _ (by simp)
    | inr hex =>
        obtain ⟨r, hr, hst⟩ := hex
        obtain ⟨p, hp, hps⟩ := List.mem_map.mp hr
        refine List.mem_append_right _ (List.mem_map.mpr ⟨p, hp, ?_⟩)
        rw [hps, hst]
  · intro x hx
    rcases List.mem_append.mp hx with h0 | h0
    · have hix : init = Option.some x := by
        cases init with
        | none => cases h0
        | some y =>
            simp only [Option.toList, List.mem_singleton] at h0
            rw [h0]
      exact codeIdx_mono x s (hinit x hix)
    · obtain ⟨p, hp, hps⟩ := List.mem_map.mp h0
      have : codeIdx p.2.status ≤ codeIdx s :=
        helems p.2 (List.mem_map.mpr ⟨p, hp, rfl⟩)
      rw [← hps]
      exact codeIdx_mono _ s this

/-- C1 counterexample: a task whose initial status is present (`include`)
reports that status even though a recorded result's `unreachable` status is
the strict spec-rank maximum of all statuses involved — the derived status
is not the maximum. -/
theorem task_status_not_max_cex :
    (mkTask (Option.some Status.include')
        [("host-task", mkRec0 Status.unreachable)]).statusRead.1
      = Status.include'
    ∧ Status.include' ≠ Status.unreachable
    ∧ Status.unreachable
        ∈ statusesOf (Option.some Status.include')
            [("host-task", mkRec0 Status.unreachable)]
    ∧ specRank Status.include' < specRank Status.unreachable := by
  refine ⟨rfl, by decide, ?_, by decide⟩
  simp [statusesOf, mkRec0]

/-- C1 (amended): when the initial status is absent, the derived status is
a spec-rank maximum of the recorded result statuses (`skipped` when there
are none); when an initial status is present, the derived status is exactly
that initial status, results notwithstanding; the roll-up function
`highest_status` itself always returns a spec-rank maximum of the initial
status and the result statuses together. -/
theorem task_status_rollup (init : Option Status)
    (recs : List (String × ResultRec)) :
    (init = Option.none → recs = [] →
      (mkTask init recs).statusRead.1 = Status.skipped)
    ∧ (init = Option.none → recs ≠ [] →
        (mkTask init recs).statusRead.1 ∈ statusesOf init recs
          ∧ ∀ x ∈ statusesOf init recs,
              specRank x ≤ specRank ((mkTask init recs).statusRead.1))
    ∧ (∀ s0, init = Option.some s0 → (mkTask init recs).statusRead.1 = s0)
    ∧ (∀ s, highest_status init (recs.map Prod.snd) = Option.some s →
        s ∈ statusesOf init recs
          ∧ ∀ x ∈ statusesOf init recs, specRank x ≤ specRank s) := by
  refine ⟨?_, ?_, ?_, ?_⟩
  · intro h1 h2
    subst h1
    subst h2
    rfl
  · intro h1 h2
    subst h1
    have hvals : recs.map Prod.snd ≠ [] := by
      intro h0
      exact h2 (List.map_eq_nil_iff.mp h0)
    obtain ⟨s, hs⟩ : ∃ s,
        highest_status Option.none (recs.map Prod.snd) = Option.some s := by
      cases hh : highest_status Option.none (recs.map Prod.snd) with
      | none =>
          exact absurd ((highest_status_none_iff _ _).mp hh).2 hvals
      | some s => exact ⟨s, rfl⟩
    have hread : (mkTask Option.none recs).statusRead.1 = s := by
      simp [mkTask, TaskData.init, TaskData.statusRead, hs]
    rw [hread]
    exact highest_status_max Option.none recs s hs
  · intro s0 h0
    subst h0
    rfl
  · intro s hs
    exact highest_status_max init recs s hs

/-- C1 witness: with no initial status and a single `changed` result, the
derived status is a member of the recorded statuses. -/
theorem task_status_rollup_witness :
    (mkTask Option.none [("host-task", mkRec0 Status.changed)]).statusRead.1
      ∈ statusesOf Option.none [("host-task", mkRec0 Status.changed)] :=
  ((task_status_rollup Option.none [("host-task", mkRec0 Status.changed)]).2.1
    rfl (List.cons_ne_nil _ _)).1

/-- C6 counterexample: rolling an initial `failed` against a child
`failures` does not keep the initial status — the source ranks `failures`
strictly above `failed` (indices 5 and 6 of the `COLORS` key order), so the
roll-up returns `failures`. -/
theorem failed_failures_not_tied_cex :
    highest_status (Option.some Status.failed) [mkRec0 Status.failures]
        = Option.some Status.failures
    ∧ Status.failures ≠ Status.failed := by
  constructor
  · rfl
  · decide

theorem rollup_rank_le (st : Option Status) (l l' : List ResultRec)
    (s s' : Status)
    (h : l.map (fun r => specRank r.status) = l'.map (fun r => specRank r.status))
    (hs : highest_status st l = Option.some s)
    (hs' : highest_status st l' = Option.some s') :
    specRank s ≤ specRank s' := by
  obtain ⟨hmem, -, -⟩ := highest_status_spec l st s hs
  obtain ⟨-, hinit', helems'⟩ := highest_status_spec l' st s' hs'
  cases hmem with
  | inl h0 =>
      exact codeIdx_mono s s' (hinit' s h0)
  | inr hex =>
      obtain ⟨r, hr, hst⟩ := hex
      have hin : specRank r.status ∈ l'.map (fun r => specRank r.status) := by
        rw [← h]
        exact List.mem_map.mpr ⟨r, hr, rfl⟩
      obtain ⟨r', hr', hrs⟩ := List.mem_map.mp hin
      have : specRank r'.status ≤ specRank s' :=
        codeIdx_mono _ s' (helems' r' hr')
      rw [← hst, ← hrs]
      exact this

/-- C6 (amended): `failed` and `failures` share the spec §3 rank but not
the roll-up rank: the source orders `failed` strictly below `failures`, so
rolling an initial `failed` against a child `failures` returns `failures`;
still, replacing children by children of equal spec rank (in particular
`failed` ↔ `failures`) never changes the spec rank of the roll-up result. -/
theorem failed_failures_rank (st : Option Status) (l l' : List ResultRec)
    (h : l.map (fun r => specRank r.status) = l'.map (fun r => specRank r.status)) :
    (highest_status st l).map specRank = (highest_status st l').map specRank
    ∧ codeIdx Status.failed < codeIdx Status.failures
    ∧ specRank Status.failed = specRank Status.failures
    ∧ highest_status (Option.some Status.failed) [mkRec0 Status.failures]
        = Option.some Status.failures := by
  refine ⟨?_, by decide, by decide, rfl⟩
  have hlen : l = [] ↔ l' = [] := by
    constructor
    · intro h0
      subst h0
      exact List.map_eq_nil_iff.mp h.symm
    · intro h0
      subst h0
      exact List.map_eq_nil_iff.mp h
  cases hh : highest_status st l with
  | none =>
      obtain ⟨h1, h2⟩ := (highest_status_none_iff l st).mp hh
      have : highest_status st l' = Option.none :=
        (highest_status_none_iff l' st).mpr ⟨h1, hlen.mp h2⟩
      rw [this]
  | some s =>
      cases hh' : highest_status st l' with
      | none =>
          obtain ⟨h1, h2⟩ := (highest_status_none_iff l' st).mp hh'
          have : highest_status st l = Option.none :=
            (highest_status_none_iff l st).mpr ⟨h1, hlen.mpr h2⟩
          rw [this] at hh
          cases hh
      | some s' =>
          simp only [Option.map_some']
          have h1 := rollup_rank_le st l l' s s' h hh hh'
          have h2 := rollup_rank_le st l' l s' s h.symm hh' hh
          exact congrArg _ (Nat.le_antisymm h1 h2)

/-- C6 witness: a `failed` child and a `failures` child give spec-rank-equal
roll-up results. -/
theorem failed_failures_rank_witness :
    (highest_status Option.none [mkRec0 Status.failed]).map specRank
      = (highest_status Option.none [mkRec0 Status.failures]).map specRank :=
  (failed_failures_rank Option.none [mkRec0 Status.failed]
    [mkRec0 Status.failures] rfl).1

/-- C10: once a task's status has been read (and thereby cached), recording
further results leaves the reported status unchanged. -/
theorem status_cached_after_first_read (ext : PyVal → String) (t : TaskData)
    (host tn : String) (res : PyVal) (st : Status) (tm : Nat) (t2 : TaskData)
    (h : record_result ext t.statusRead.2 host tn res st tm = Option.some t2) :
    t2.statusRead.1 = t.statusRead.1 := by
  have hc : t2.stCache = Option.some t.statusRead.1 := by
    cases hd : get_diff ext res st with
    | none =>
        rw [record_result, hd] at h
        cases h
    | some diffs =>
        rw [record_result, hd] at h
        obtain rfl := Option.some.inj h
        rfl
  simp [TaskData.statusRead, hc]

/-- C10 witness: a task read as `skipped` while empty still reports
`skipped` after a `failed` result is recorded. -/
theorem status_cached_witness :
    wCached2.statusRead.1 = wTask0.statusRead.1
      ∧ wTask0.statusRead.1 = Status.skipped :=
  ⟨status_cached_after_first_read ext0 wTask0 "h" "t" wRes0 Status.failed 5
      wCached2 rfl,
    rfl⟩

theorem assocGet_append_fresh {α : Type} (l : List (String × α)) (k : String)
    (v : α) (h : ∀ p ∈ l, p.1 ≠ k) :
    assocGet (l ++ [(k, v)]) k = Option.some v := by
  induction l with
  | nil => simp [assocGet]
  | cons p tl ih =>
      rw [List.cons_append, assocGet, if_neg (h p (List.mem_cons_self p tl))]
      exact ih fun q hq => h q (List.mem_cons_of_mem p hq)

theorem map_upsert_fresh {α : Type} (l : List (String × α)) (k : String)
    (v : α) (h : ∀ p ∈ l, p.1 ≠ k) :
    (l.map fun p => if p.1 = k then (k, v) else p) = l := by
  induction l with
  | nil => rfl
  | cons p tl ih =>
      rw [List.map_cons, if_neg (h p (List.mem_cons_self p tl)),
        ih fun q hq => h q (List.mem_cons_of_mem p hq)]

theorem filter_key_fresh {α : Type} (l : List (String × α)) (k : String)
    (h : ∀ p ∈ l, p.1 ≠ k) : (l.filter fun p => p.1 = k) = [] := by
  induction l with
  | nil => rfl
  | cons p tl ih =>
      have hne : ¬ (p.1 = k) := h p (List.mem_cons_self p tl)
      simp only [List.filter_cons, hne, decide_False, if_false]
      exact ih fun q hq => h q (List.mem_cons_of_mem p hq)

/-- C3: recording a second result under the same (host, task-name) key
updates in place: afterwards the mapping holds exactly one entry under
that key, its value is the record built from the later event, and the key
sits at the position where the first event inserted it (the end of the
original mapping, whose keys are unchanged). -/
theorem record_result_upsert (ext : PyVal → String) (t : TaskData)
    (host tn : String) (res1 res2 : PyVal) (st1 st2 : Status) (tm1 tm2 : Nat)
    (t1 t2 : TaskData)
    (hfresh : ∀ p ∈ t.results, p.1 ≠ host ++ "-" ++ tn)
    (h1 : record_result ext t host tn res1 st1 tm1 = Option.some t1)
    (h2 : record_result ext t1 host tn res2 st2 tm2 = Option.some t2) :
    (t2.results.filter fun p => p.1 = host ++ "-" ++ tn).length = 1
    ∧ t2.results.map Prod.fst = t.results.map Prod.fst ++ [host ++ "-" ++ tn]
    ∧ (∃ diffs2, get_diff ext res2 st2 = Option.some diffs2
        ∧ assocGet t2.results (host ++ "-" ++ tn)
            = Option.some (recOfEvent host tn res2 st2 tm2 diffs2)) := by
  cases hd1 : get_diff ext res1 st1 with
  | none =>
      rw [record_result, hd1] at h1
      cases h1
  | some diffs1 =>
      rw [record_result, hd1] at h1
      have hany : (t.results.any fun p => decide (p.1 = host ++ "-" ++ tn)) = false := by
        rw [List.any_eq_false]
        intro p hp
        simp only [decide_eq_true_eq]
        exact hfresh p hp
      simp only [hany, Bool.false_eq_true, if_false] at h1
      obtain rfl := Option.some.inj h1
      cases hd2 : get_diff ext res2 st2 with
      | none =>
          rw [record_result, hd2] at h2
          cases h2
      | some diffs2 =>
          rw [record_result, hd2] at h2
          have hany2 : ((t.results ++ [(host ++ "-" ++ tn,
              recOfEvent host tn res1 st1 tm1 diffs1)]).any
                fun p => decide (p.1 = host ++ "-" ++ tn)) = true := by
            rw [List.any_eq_true]
            exact ⟨(host ++ "-" ++ tn, recOfEvent host tn res1 st1 tm1 diffs1),
              List.mem_append_right _ (List.mem_singleton_self _), by simp⟩
          simp only [hany2, if_true] at h2
          obtain rfl := Option.some.inj h2
          have hmap : ((t.results ++ [(host ++ "-" ++ tn,
              recOfEvent host tn res1 st1 tm1 diffs1)]).map
                fun p => if p.1 = host ++ "-" ++ tn
                  then (host ++ "-" ++ tn, recOfEvent host tn res2 st2 tm2 diffs2)
                  else p)
              = t.results ++ [(host ++ "-" ++ tn,
                  recOfEvent host tn res2 st2 tm2 diffs2)] := by
            rw [List.map_append, map_upsert_fresh t.results _ _ hfresh]
            simp
          refine ⟨?_, ?_, diffs2, rfl, ?_⟩
          · simp only [hmap, List.filter_append,
              filter_key_fresh t.results _ hfresh]
            simp
          · simp only [hmap, List.map_append, List.map_cons, List.map_nil]
          · simp only [hmap]
            exact assocGet_append_fresh t.results _ _ hfresh

/-- C3 witness: two concrete events under key `h-t` on an empty task leave
one entry, keyed at the first insertion position, holding the later
values. -/
theorem record_result_upsert_witness :
    (wUpsert2.results.filter fun p => p.1 = "h" ++ "-" ++ "t").length = 1
    ∧ wUpsert2.results.map Prod.fst = wTask0.results.map Prod.fst ++ ["h" ++ "-" ++ "t"]
    ∧ (∃ diffs2, get_diff ext0 wRes0 Status.changed = Option.some diffs2
        ∧ assocGet wUpsert2.results ("h" ++ "-" ++ "t")
            = Option.some (recOfEvent "h" "t" wRes0 Status.changed 1 diffs2)) :=
  record_result_upsert ext0 wTask0 "h" "t" wRes0 wRes0 Status.ok Status.changed
    0 1 wUpsert1 wUpsert2 (by simp [wTask0, mkTask, TaskData.init]) rfl rfl

/-- C8: the toggle anchor is among a block's parts iff both the header and
the content are (truthily) present; a block with a header but no content
carries neither a toggle nor a collapsible content region. -/
theorem color_block_toggle (status : Status) (header content : Option String)
    (divId : String) :
    ((∃ c i, CBPart.toggle c i ∈ color_block status header content divId)
        ↔ (truthyStr header = true ∧ truthyStr content = true))
    ∧ (truthyStr header = true → truthyStr content = false →
        (∀ c i, CBPart.toggle c i ∉ color_block status header content divId)
          ∧ ∀ i, CBPart.collapseOpen i ∉ color_block status header content divId) := by
  cases hh : truthyStr header <;> cases hc : truthyStr content <;>
    simp [color_block, hh, hc]

/-- C8 witness: with a header and a body present, the block holds a toggle
anchor. -/
theorem color_block_toggle_witness :
    ∃ c i, CBPart.toggle c i
      ∈ color_block Status.ok (Option.some "H") (Option.some "B") "7" :=
  (color_block_toggle Status.ok (Option.some "H") (Option.some "B") "7").1.mpr
    ⟨rfl, rfl⟩

theorem mapDiffs_dicts (ext : PyVal → String) (status : Status) :
    ∀ rds : List (List (String × PyVal)),
      mapDiffs ext status (rds.map PyVal.dict)
        = Option.some (rds.map (mkDiffOf ext status))
  | [] => rfl
  | rd :: tl => by
      simp [mapDiffs, diffOfSource, mapDiffs_dicts ext status tl]

/-- C4: with a `results` list, one Diff per element; otherwise exactly one
Diff built from the whole result; `failed` equals the explicit field when
present and `status == failed` otherwise; `changed` defaults to `False`. -/
theorem get_diff_extraction (ext : PyVal → String) (d : List (String × PyVal))
    (status : Status) :
    (∀ rds : List (List (String × PyVal)),
        dictGet d "results" = Option.some (PyVal.list (rds.map PyVal.dict)) →
        get_diff ext (PyVal.dict d) status
            = Option.some (rds.map (mkDiffOf ext status))
          ∧ (rds.map (mkDiffOf ext status)).length = rds.length)
    ∧ (dictGet d "results" = Option.none →
        get_diff ext (PyVal.dict d) status = Option.some [mkDiffOf ext status d])
    ∧ (∀ (rd : List (String × PyVal)) v, dictGet rd "failed" = Option.some v →
        (mkDiffOf ext status rd).failed = v)
    ∧ (∀ rd : List (String × PyVal), dictGet rd "failed" = Option.none →
        (mkDiffOf ext status rd).failed = PyVal.bool (status = Status.failed))
    ∧ (∀ rd : List (String × PyVal), dictGet rd "changed" = Option.none →
        (mkDiffOf ext status rd).changed = PyVal.bool false) := by
  refine ⟨?_, ?_, ?_, ?_, ?_⟩
  · intro rds hres
    refine ⟨?_, by simp⟩
    simp [get_diff, hres, mapDiffs_dicts]
  · intro hres
    simp [get_diff, hres, mapDiffs, diffOfSource]
  · intro rd v hv
    simp [mkDiffOf, hv]
  · intro rd hv
    simp [mkDiffOf, hv]
  · intro rd hv
    simp [mkDiffOf, hv]

/-- C4 witness: a looped raw result with one (empty-dict) item yields one
Diff. -/
theorem get_diff_extraction_witness :
    get_diff ext0 (PyVal.dict [("results", PyVal.list [PyVal.dict []])]) Status.ok
        = Option.some ([[]].map (mkDiffOf ext0 Status.ok))
    ∧ ([[]].map (mkDiffOf ext0 Status.ok)).length = 1 :=
  (get_diff_extraction ext0 [("results", PyVal.list [PyVal.dict []])] Status.ok).1
    [[]] rfl

theorem code_block_ne_empty (s : String) : code_block s ≠ "" := by
  intro h
  have h2 : (code_block s).length = 0 := by rw [h]; rfl
  simp only [code_block, String.length_append] at h2
  have h3 : ("<code><pre>" : String).length = 11 := rfl
  omega

theorem renderDiff_counts (st : Status) (dr : DiffRec) :
    (renderDiff st dr).countP isFailureBlock = (if truthy dr.failed then 1 else 0)
    ∧ (renderDiff st dr).countP (fun b => !isFailureBlock b)
        = (if nonFailEmits dr then 1 else 0) := by
  unfold renderDiff nonFailEmits
  cases hf : truthy dr.failed with
  | true => simp [List.countP_singleton, isFailureBlock]
  | false =>
      cases hc : truthy dr.changed with
      | false =>
          by_cases hi : itemStr dr ≠ "" <;>
            simp [hi, List.countP_singleton, isFailureBlock]
      | true =>
          by_cases hi : itemStr dr = "" <;> by_cases hd : dr.diff = "" <;>
            simp [hi, hd, List.countP_singleton, isFailureBlock,
              code_block_ne_empty]

theorem renderDiffs_counts (st : Status) :
    ∀ diffs : List DiffRec,
      (renderDiffs st diffs).countP isFailureBlock
          = diffs.countP (fun dr => truthy dr.failed)
      ∧ (renderDiffs st diffs).countP (fun b => !isFailureBlock b)
          = diffs.countP nonFailEmits
  | [] => by simp [renderDiffs]
  | dr :: tl => by
      obtain ⟨h1, h2⟩ := renderDiff_counts st dr
      obtain ⟨ih1, ih2⟩ := renderDiffs_counts st tl
      have hsplit : renderDiffs st (dr :: tl)
          = renderDiff st dr ++ renderDiffs st tl := by
        simp [renderDiffs]
      constructor
      · rw [hsplit, List.countP_append, h1, ih1, List.countP_cons]
        cases truthy dr.failed <;> simp [Nat.add_comm]
      · rw [hsplit, List.countP_append, h2, ih2, List.countP_cons]
        cases hne : nonFailEmits dr <;> simp [hne, Nat.add_comm]

/-- C5 counterexample: a looped raw result with N = 1 item and K = 0
failed items (the item carries an explicit `failed: false`), overall
status `ok`: rendering yields 0 non-failure diff blocks, not N − K = 1
(the unchanged item has no item label, so its block is suppressed). -/
theorem render_nonfailure_count_cex :
    ∃ diffs, get_diff ext0 cexLoopRes Status.ok = Option.some diffs
      ∧ diffs.length = 1
      ∧ (renderDiffs Status.ok diffs).countP isFailureBlock = 0
      ∧ (renderDiffs Status.ok diffs).countP (fun b => !isFailureBlock b) = 0 :=
  ⟨[mkDiffOf ext0 Status.ok [("failed", PyVal.bool false)]], rfl, rfl, rfl, rfl⟩

/-- C5 (amended): for a looped raw result whose `results` list holds N
item dicts, rendering produces exactly K failure diff blocks, where K
counts the items whose resolved failed flag (explicit `failed` value if
present, else status == failed) is truthy, and one non-failure block for
each remaining item that passes the render condition (an item label when
unchanged; an item label or nonempty rendered diff text when changed) — in
particular at most N − K non-failure blocks. -/
theorem render_diff_block_counts (ext : PyVal → String)
    (d : List (String × PyVal)) (rds : List (List (String × PyVal)))
    (status : Status)
    (hres : dictGet d "results" = Option.some (PyVal.list (rds.map PyVal.dict))) :
    ∃ diffs, get_diff ext (PyVal.dict d) status = Option.some diffs
      ∧ diffs.length = rds.length
      ∧ (renderDiffs status diffs).countP isFailureBlock
          = rds.countP (resolvedFailed status)
      ∧ (renderDiffs status diffs).countP (fun b => !isFailureBlock b)
          = rds.countP (fun rd => nonFailEmits (mkDiffOf ext status rd))
      ∧ (renderDiffs status diffs).countP (fun b => !isFailureBlock b)
          ≤ rds.length - rds.countP (resolvedFailed status) := by
  refine ⟨rds.map (mkDiffOf ext status),
    by simp [get_diff, hres, mapDiffs_dicts], by simp, ?_, ?_, ?_⟩
  · obtain ⟨h1, -⟩ := renderDiffs_counts status (rds.map (mkDiffOf ext status))
    rw [h1, List.countP_map]
    rfl
  · obtain ⟨-, h2⟩ := renderDiffs_counts status (rds.map (mkDiffOf ext status))
    rw [h2, List.countP_map]
    rfl
  · obtain ⟨-, h2⟩ := renderDiffs_counts status (rds.map (mkDiffOf ext status))
    rw [h2, List.countP_map]
    show rds.countP (fun rd => nonFailEmits (mkDiffOf ext status rd))
      ≤ rds.length - rds.countP (resolvedFailed status)
    have hmono : rds.countP (fun rd => nonFailEmits (mkDiffOf ext status rd))
        ≤ rds.countP (fun rd => ¬ resolvedFailed status rd) := by
      refine List.countP_mono_left fun rd _ h => ?_
      by_cases hfv : truthy (mkDiffOf ext status rd).failed = true
      · rw [nonFailEmits, if_pos hfv] at h
        cases h
      · have hrf : resolvedFailed status rd = false := by
          have hfalse : truthy (mkDiffOf ext status rd).failed = false :=
            Bool.eq_false_iff.mpr hfv
          exact hfalse
        simp [hrf]
    have hlen := List.length_eq_countP_add_countP (resolvedFailed status) rds
    omega

/-- C5 witness: a looped result with one failed and one labelled ok item
renders one failure block and one non-failure block. -/
theorem render_diff_block_counts_witness :
    ∃ diffs, get_diff ext0 (PyVal.dict wLoopRes) Status.ok = Option.some diffs
      ∧ diffs.length = wLoopRds.length
      ∧ (renderDiffs Status.ok diffs).countP isFailureBlock
          = wLoopRds.countP (resolvedFailed Status.ok)
      ∧ (renderDiffs Status.ok diffs).countP (fun b => !isFailureBlock b)
          = wLoopRds.countP (fun rd => nonFailEmits (mkDiffOf ext0 Status.ok rd))
      ∧ (renderDiffs Status.ok diffs).countP (fun b => !isFailureBlock b)
          ≤ wLoopRds.length - wLoopRds.countP (resolvedFailed Status.ok) :=
  render_diff_block_counts ext0 wLoopRes wLoopRds Status.ok rfl

theorem statusRead_cached (t : TaskData) (s : Status)
    (h : t.stCache = Option.some s) : t.statusRead = (s, t) := by
  cases t with
  | mk start name file pfx stCache results ifp ia ihs tt =>
      change stCache = Option.some s at h
      subst h
      rfl

theorem renderResultStep_results (file : String) (s : Status)
    (acc : String × List (String × ResultRec) × Nat) (kv : String × ResultRec) :
    (renderResultStep file s acc kv).2.1 = acc.2.1 ++ [retagKV s kv] := by
  unfold renderResultStep retagKV
  dsimp only
  split <;> rfl

theorem renderResults_fold (file : String) (s : Status) :
    ∀ (l : List (String × ResultRec)) (init : String × List (String × ResultRec) × Nat),
      (l.foldl (renderResultStep file s) init).2.1
        = init.2.1 ++ l.map (retagKV s)
  | [], init => by simp
  | kv :: tl, init => by
      rw [List.foldl_cons, renderResults_fold file s tl,
        renderResultStep_results, List.map_cons]
      simp

theorem to_html_task_effect (t : TaskData) (ctr : Nat) :
    (t.to_html ctr).2.1 = taskRenderEffect t := by
  cases htt : t.task_type with
  | localInclude =>
      simp only [TaskData.to_html, taskRenderEffect, htt, if_pos]
  | task =>
      simp only [TaskData.to_html, taskRenderEffect, htt,
        reduceCtorEq, if_false]
      rw [renderResults_fold]
      rfl
  | includeRole =>
      simp only [TaskData.to_html, taskRenderEffect, htt,
        reduceCtorEq, if_false]
      rw [renderResults_fold]
      rfl

theorem retagStatus_idem : ∀ s x, retagStatus s (retagStatus s x) = retagStatus s x := by
  decide

theorem retagKV_idem (s : Status) (kv : String × ResultRec) :
    retagKV s (retagKV s kv) = retagKV s kv := by
  simp [retagKV, retagStatus_idem]

theorem taskRenderEffect_idem (t : TaskData) :
    taskRenderEffect (taskRenderEffect t) = taskRenderEffect t := by
  by_cases h : t.task_type = TaskType.localInclude
  · have h1 : taskRenderEffect t = t.statusRead.2 := by
      rw [taskRenderEffect, if_pos h]
    have h2 : (t.statusRead.2).task_type = TaskType.localInclude := h
    rw [h1, taskRenderEffect, if_pos h2]
    exact congrArg Prod.snd (statusRead_cached (t.statusRead.2) t.statusRead.1 rfl)
  · have h1 : taskRenderEffect t
        = { t.statusRead.2 with results := t.results.map (retagKV t.statusRead.1) } := by
      rw [taskRenderEffect, if_neg h]
    have h2 : ({ t.statusRead.2 with
        results := t.results.map (retagKV t.statusRead.1) } : TaskData).task_type
          = t.task_type := rfl
    have hsr := statusRead_cached
      ({ t.statusRead.2 with results := t.results.map (retagKV t.statusRead.1) })
      t.statusRead.1 rfl
    rw [h1, taskRenderEffect, if_neg (by rw [h2]; exact h), hsr]
    simp only [List.map_map]
    have hfun : retagKV t.statusRead.1 ∘ retagKV t.statusRead.1
        = retagKV t.statusRead.1 := funext fun kv => retagKV_idem _ kv
    rw [hfun]

theorem runTasks_fold :
    ∀ (ts : List TaskData) (init : String × List TaskData × Nat),
      (ts.foldl runTaskStep init).2.1 = init.2.1 ++ ts.map taskRenderEffect
  | [], init => by simp
  | t :: tl, init => by
      rw [List.foldl_cons, runTasks_fold tl]
      have hstep : (runTaskStep init t).2.1 = init.2.1 ++ [taskRenderEffect t] := by
        show init.2.1 ++ [(t.to_html init.2.2).2.1]
          = init.2.1 ++ [taskRenderEffect t]
        rw [to_html_task_effect]
      rw [hstep, List.map_cons]
      simp

/-- C2 counterexample: rendering is not side-effect-free on the data
model — the stored `ok` result of an include-status task is retagged to
`include` by `to_html`, so the run's data model after rendering differs
from the one before. -/
theorem to_html_mutates_cex :
    ((wRenderRun.to_html 0).2.1.tasks.map fun tk =>
        tk.results.map fun kv => kv.2.status) = [[Status.include']]
    ∧ (wRenderRun.tasks.map fun tk =>
        tk.results.map fun kv => kv.2.status) = [[Status.ok]] :=
  ⟨rfl, rfl⟩

/-- C2 (amended): rendering does mutate the data model, but only by
filling each task's status cache and applying the `ok`→`include` status
rewrite to stored results of include-status tasks; keys and every other
result field are untouched, and the mutation is idempotent — rendering
the once-rendered document leaves it unchanged (two consecutive
renderings end in the same data model). -/
theorem to_html_effect_idempotent (run : RunData) (ctr : Nat) :
    ((run.to_html ctr).2.1 = { run with tasks := run.tasks.map taskRenderEffect })
    ∧ (∀ ctr2, (((run.to_html ctr).2.1).to_html ctr2).2.1 = (run.to_html ctr).2.1)
    ∧ (∀ t : TaskData,
        ((taskRenderEffect t).results.map fun kv =>
            (kv.1, kv.2.time, kv.2.host, kv.2.task_name, kv.2.deleg_vars,
              kv.2.diffs, kv.2.result))
          = t.results.map fun kv =>
            (kv.1, kv.2.time, kv.2.host, kv.2.task_name, kv.2.deleg_vars,
              kv.2.diffs, kv.2.result)) := by
  have hrun : ∀ (r : RunData) (c : Nat),
      (r.to_html c).2.1 = { r with tasks := r.tasks.map taskRenderEffect } := by
    intro r c
    show ({ r with tasks := (r.tasks.foldl runTaskStep (_, [], c + 1)).2.1 } : RunData)
      = { r with tasks := r.tasks.map taskRenderEffect }
    rw [runTasks_fold]
    rfl
  refine ⟨hrun run ctr, ?_, ?_⟩
  · intro ctr2
    rw [hrun run ctr, hrun _ ctr2]
    show ({ run with tasks := (run.tasks.map taskRenderEffect).map taskRenderEffect } : RunData)
      = { run with tasks := run.tasks.map taskRenderEffect }
    rw [List.map_map]
    have hfun : taskRenderEffect ∘ taskRenderEffect = taskRenderEffect :=
      funext fun t => taskRenderEffect_idem t
    rw [hfun]
  · intro t
    by_cases h : t.task_type = TaskType.localInclude
    · rw [taskRenderEffect, if_pos h]
      rfl
    · rw [taskRenderEffect, if_neg h]
      show (t.results.map (retagKV t.statusRead.1)).map _ = _
      rw [List.map_map]
      rfl

theorem targetStep_fail
    (gather : String → Option String → Bool → Except Unit (List Entry))
    (showMacs : String → Except Unit (List String)) (vxlan : Bool)
    (acc : List String × List (String × Entry)) (bad : String)
    (hbad : gather (parseTarget bad).1 (parseTarget bad).2 vxlan = Except.error ()) :
    targetStep gather showMacs false vxlan acc bad
      = (acc.1 ++ ["# unresponsive targets: " ++ bad.trim], acc.2) := by
  unfold targetStep
  simp only [Bool.false_eq_true, if_false, hbad]

theorem targetStep_out_prefix
    (gather : String → Option String → Bool → Except Unit (List Entry))
    (showMacs : String → Except Unit (List String)) (vm vxlan : Bool)
    (acc : List String × List (String × Entry)) (line : String) :
    ∃ suf, (targetStep gather showMacs vm vxlan acc line).1 = acc.1 ++ suf := by
  unfold targetStep
  dsimp only
  by_cases hv : vm = true
  · rw [if_pos hv]
    cases hsm : showMacs (parseTarget line).1 with
    | ok out => exact ⟨out, rfl⟩
    | error e => exact ⟨_, rfl⟩
  · rw [if_neg hv]
    cases hg : gather (parseTarget line).1 (parseTarget line).2 vxlan with
    | ok data => exact ⟨[], by simp⟩
    | error e => exact ⟨_, rfl⟩

theorem foldl_out_prefix
    (gather : String → Option String → Bool → Except Unit (List Entry))
    (showMacs : String → Except Unit (List String)) (vm vxlan : Bool) :
    ∀ (l : List String) (init : List String × List (String × Entry)),
      ∃ suf, (l.foldl (targetStep gather showMacs vm vxlan) init).1 = init.1 ++ suf
  | [], init => ⟨[], by simp⟩
  | line :: tl, init => by
      obtain ⟨s1, h1⟩ := targetStep_out_prefix gather showMacs vm vxlan init line
      obtain ⟨s2, h2⟩ := foldl_out_prefix gather showMacs vm vxlan tl
        (targetStep gather showMacs vm vxlan init line)
      exact ⟨s1 ++ s2, by rw [List.foldl_cons, h2, h1, List.append_assoc]⟩

/-- C9 counterexample: the single-target path (`-m`/`-s`, no targets file)
does not catch a gathering error — it propagates and aborts the run with
no "unresponsive targets" diagnostic. -/
theorem single_target_abort_cex :
    processSingleTarget gatherFail showMacs0 false "user@master"
        (Option.some "user@slave") false
      = Except.error () := rfl

/-- C9 (amended): in the targets-file batch path a failing target is
caught per-target — the iteration appends the diagnostic line naming the
stripped target line and leaves the collected entries untouched — the loop
then continues over the remaining targets from exactly that state, and the
diagnostic appears in the final printed output (the batch run is never
aborted); in the single-target path, by contrast, a gathering error
propagates and aborts the run. -/
theorem targets_loop_tolerates_failure
    (gather : String → Option String → Bool → Except Unit (List Entry))
    (showMacs : String → Except Unit (List String)) (vxlan : Bool)
    (xs ys : List String) (bad : String)
    (hbad : gather (parseTarget bad).1 (parseTarget bad).2 vxlan = Except.error ()) :
    (∀ acc, targetStep gather showMacs false vxlan acc bad
        = (acc.1 ++ ["# unresponsive targets: " ++ bad.trim], acc.2))
    ∧ (∀ init,
        (xs ++ bad :: ys).foldl (targetStep gather showMacs false vxlan) init
          = ys.foldl (targetStep gather showMacs false vxlan)
              ((xs.foldl (targetStep gather showMacs false vxlan) init).1
                  ++ ["# unresponsive targets: " ++ bad.trim],
                (xs.foldl (targetStep gather showMacs false vxlan) init).2))
    ∧ ("# unresponsive targets: " ++ bad.trim)
        ∈ processTargets gather showMacs false vxlan (xs ++ bad :: ys) := by
  have hstep : ∀ acc, targetStep gather showMacs false vxlan acc bad
      = (acc.1 ++ ["# unresponsive targets: " ++ bad.trim], acc.2) :=
    fun acc => targetStep_fail gather showMacs vxlan acc bad hbad
  have hsplit : ∀ init,
      (xs ++ bad :: ys).foldl (targetStep gather showMacs false vxlan) init
        = ys.foldl (targetStep gather showMacs false vxlan)
            ((xs.foldl (targetStep gather showMacs false vxlan) init).1
                ++ ["# unresponsive targets: " ++ bad.trim],
              (xs.foldl (targetStep gather showMacs false vxlan) init).2) := by
    intro init
    rw [List.foldl_append, List.foldl_cons, hstep]
  refine ⟨hstep, hsplit, ?_⟩
  obtain ⟨suf, hsuf⟩ := foldl_out_prefix gather showMacs false vxlan ys
    ((xs.foldl (targetStep gather showMacs false vxlan) ([], [])).1
        ++ ["# unresponsive targets: " ++ bad.trim],
      (xs.foldl (targetStep gather showMacs false vxlan) ([], [])).2)
  unfold processTargets
  dsimp only
  rw [hsplit ([], [])]
  refine List.mem_append_left _ ?_
  rw [hsuf]
  exact List.mem_append_left _
    (List.mem_append_right _ (List.mem_singleton_self _))

/-- C9 witness: a batch of three targets with an unreachable middle target
still prints the diagnostic naming it. -/
theorem targets_loop_witness :
    ("# unresponsive targets: " ++ "u@bad".trim)
      ∈ processTargets gatherFail showMacs0 false false
          (["u@a"] ++ "u@bad" :: ["u@c"]) :=
  (targets_loop_tolerates_failure gatherFail showMacs0 false ["u@a"] ["u@c"]
    "u@bad" rfl).2.2

end SysadminTools
